import Mathlib

/-!
Shallow embedding of the StrelokAI ballistics core (`ballistics/atmosphere.py`
and `ballistics/solver.py`) over the real numbers, together with theorems that
settle the specification claims about it.  Machine floats are modelled as real
numbers; Python `Optional[float]` fields become `Option ℝ`; exceptions become
`Except`/`Option` results.
-/

open Real

/-! ### Atmosphere model (`ballistics/atmosphere.py`) -/

/-- The `AtmosphericConditions` dataclass: temperature (°C), pressure (mbar),
relative humidity (%), altitude (m). -/
structure AtmosphericConditions where
  temperature_c : ℝ
  pressure_mbar : ℝ
  humidity_pct : ℝ
  altitude_m : ℝ

/-- `AtmosphericConditions.temperature_k`: temperature in Kelvin. -/
def temperature_k (c : AtmosphericConditions) : ℝ :=
  c.temperature_c + 273.15

/-- `Atmosphere.STD_DENSITY`: standard air density, kg/m³. -/
def STD_DENSITY : ℝ := 1.225

/-- `Atmosphere.air_density`: ideal-gas law with the Magnus humidity
correction, exactly as in the source (`es` via the Magnus formula, actual
vapor pressure scaled by relative humidity, dry-air partial pressure, then
the two-term density). -/
noncomputable def air_density (c : AtmosphericConditions) : ℝ :=
  let T := temperature_k c
  let P := c.pressure_mbar * 100
  let es := 6.1078 * (10 : ℝ) ^ (7.5 * c.temperature_c / (c.temperature_c + 237.3))
  let e := es * (c.humidity_pct / 100)
  let Pd := P - e * 100
  Pd / (287.05 * T) + e * 100 / (461.495 * T)

/-- `Atmosphere.density_ratio`: current density over `STD_DENSITY`. -/
noncomputable def density_ratio (c : AtmosphericConditions) : ℝ :=
  air_density c / STD_DENSITY

/-- `Atmosphere.speed_of_sound`: √(γ·R·T) with γ = 1.4, R = 287.05. -/
noncomputable def speed_of_sound (c : AtmosphericConditions) : ℝ :=
  Real.sqrt (1.4 * 287.05 * temperature_k c)

/-- `Atmosphere.mach_number`. -/
noncomputable def mach_number (c : AtmosphericConditions) (v : ℝ) : ℝ :=
  v / speed_of_sound c

/-- `Atmosphere.density_altitude_m` as its `except (ValueError,
ZeroDivisionError)` clause intends: when the fractional power
`density_ratio ** (L·R/g)` has a negative base (the domain-error case the
handler is written for), fall back to the supplied altitude, otherwise invert
the barometric formula.  Note: in Python 3 the `**` operator on a negative
float base with a fractional exponent actually returns a *complex* number and
raises no `ValueError`, so the fallback branch of the source is unreachable;
this definition captures the documented fallback the claim describes. -/
noncomputable def density_altitude_m_fallback (c : AtmosphericConditions) : ℝ :=
  if density_ratio c < 0 then c.altitude_m
  else (288.15 / 0.0065) * (1 - density_ratio c ^ (0.0065 * 287.05 / 9.80665 : ℝ))

/-! ### Projectile and drag-model selection (`ballistics/solver.py`) -/

/-- The two reference drag families. -/
inductive DragModel
  | G1
  | G7
deriving DecidableEq

/-- The `Projectile` dataclass: both ballistic coefficients are
`Optional[float]` in the source. -/
structure Projectile where
  mass_grains : ℝ
  diameter_inches : ℝ
  bc_g1 : Option ℝ := none
  bc_g7 : Option ℝ := none
  length_inches : ℝ := 1

/-- `Projectile.mass_kg`. -/
def Projectile.mass_kg (p : Projectile) : ℝ :=
  p.mass_grains * 0.0000647989

/-- Python truthiness of an `Optional[float]`: `None` and `0.0` are falsy,
every other float is truthy. -/
def truthy : Option ℝ → Prop
  | none => False
  | some x => x ≠ 0

noncomputable instance truthy.instDecidable : ∀ o : Option ℝ, Decidable (truthy o)
  | none => isFalse (fun h => h)
  | some x =>
    if h : x = 0 then isFalse (fun hx => hx h) else isTrue h

/-- `BallisticSolver._select_drag_model`: `if bc_g7: … elif bc_g1: … else:
raise ValueError(…)`, with Python truthiness on the optional fields.  The
raised `ValueError` is modelled as an `Except.error`. -/
noncomputable def select_drag_model (p : Projectile) : Except String (DragModel × ℝ) :=
  if truthy p.bc_g7 then
    Except.ok (DragModel.G7, p.bc_g7.getD 0)
  else if truthy p.bc_g1 then
    Except.ok (DragModel.G1, p.bc_g1.getD 0)
  else
    Except.error "Projectile must have either G1 or G7 BC"

/-! ### Claim C3: density ratio of the standard atmosphere -/

/-- Standard conditions: 15 °C, 1013.25 mbar, 0 % humidity, 0 m. -/
def stdConditions : AtmosphericConditions :=
  ⟨15, 1013.25, 0, 0⟩

/-- At standard conditions the humidity terms vanish and the density ratio is
the exact rational `101325 / (287.05 · 288.15) / 1.225`. -/
theorem density_ratio_std_eq :
    density_ratio stdConditions = 101325 / (287.05 * 288.15) / 1.225 := by
  show air_density stdConditions / STD_DENSITY = _
  show (let T := temperature_k stdConditions
        let P := stdConditions.pressure_mbar * 100
        let es := 6.1078 *
          (10 : ℝ) ^ (7.5 * stdConditions.temperature_c / (stdConditions.temperature_c + 237.3))
        let e := es * (stdConditions.humidity_pct / 100)
        let Pd := P - e * 100
        Pd / (287.05 * T) + e * 100 / (461.495 * T)) / STD_DENSITY = _
  show (let T := (15 : ℝ) + 273.15
        let P := (1013.25 : ℝ) * 100
        let es := 6.1078 * (10 : ℝ) ^ (7.5 * (15 : ℝ) / ((15 : ℝ) + 237.3))
        let e := es * ((0 : ℝ) / 100)
        let Pd := P - e * 100
        Pd / (287.05 * T) + e * 100 / (461.495 * T)) / (1.225 : ℝ) = _
  norm_num

/-- Claim C3, counterexample: the density ratio of the standard atmosphere is
*not* within 1e-9 of 1 (the source divides the exact ideal-gas density by the
rounded constant 1.225, leaving a relative discrepancy of about 1.0e-5). -/
theorem density_ratio_std_not_within_1e9 :
    ¬ |density_ratio stdConditions - 1| ≤ 1e-9 := by
  rw [density_ratio_std_eq, abs_le]
  norm_num

/-- Claim C3, amended: the density ratio of the standard atmosphere equals 1
to within 1.1e-5 (though not to within 1e-9). -/
theorem density_ratio_std_within_1p1e5 :
    |density_ratio stdConditions - 1| < 1.1e-5 := by
  rw [density_ratio_std_eq, abs_lt]
  norm_num

/-! ### Claim C8: density-altitude domain error -/

/-- Hot, near-vacuum, saturated conditions: 50 °C, 1 mbar, 100 % humidity.
Here the vapor pressure exceeds the total pressure and the computed air
density is negative. -/
def c8Conditions : AtmosphericConditions :=
  ⟨50, 1, 100, 123⟩

/-- Claim C8: at `c8Conditions` the computed air density (hence the density
ratio) is negative, so `density_ratio ** 0.19026…` is a fractional power of a
negative base — the domain-error case the claim speaks of — and the fallback
the source's `except` clause documents would return the input altitude 123
unchanged.  (The running Python 3 code instead produces a complex number here,
because float `**` with a negative base returns complex rather than raising
`ValueError`.) -/
theorem density_altitude_domain_error_fallback :
    air_density c8Conditions < 0 ∧
      density_altitude_m_fallback c8Conditions = c8Conditions.altitude_m := by
  have hpow : (10 : ℝ) ≤ (10 : ℝ) ^ (7.5 * (50 : ℝ) / ((50 : ℝ) + 237.3)) := by
    have h1 : (10 : ℝ) ^ (1 : ℝ) ≤ (10 : ℝ) ^ (7.5 * (50 : ℝ) / ((50 : ℝ) + 237.3)) := by
      apply Real.rpow_le_rpow_of_exponent_le (by norm_num)
      norm_num
    rwa [Real.rpow_one] at h1
  have hval : air_density c8Conditions =
      (1 * 100 - 6.1078 * (10 : ℝ) ^ (7.5 * (50 : ℝ) / ((50 : ℝ) + 237.3)) * (100 / 100) * 100) /
          (287.05 * ((50 : ℝ) + 273.15)) +
        6.1078 * (10 : ℝ) ^ (7.5 * (50 : ℝ) / ((50 : ℝ) + 237.3)) * (100 / 100) * 100 /
          (461.495 * ((50 : ℝ) + 273.15)) := by
    rfl
  have hneg : air_density c8Conditions < 0 := by
    rw [hval]
    set X : ℝ := (10 : ℝ) ^ (7.5 * (50 : ℝ) / ((50 : ℝ) + 237.3)) with hX
    have h10 : (10 : ℝ) ≤ X := hpow
    have e1 : (1 * 100 - 6.1078 * X * (100 / 100) * 100) / (287.05 * ((50 : ℝ) + 273.15)) =
        (100 - 610.78 * X) / 92760.2075 := by ring_nf
    have e2 : 6.1078 * X * (100 / 100) * 100 / (461.495 * ((50 : ℝ) + 273.15)) =
        610.78 * X / 149132.10925 := by ring_nf
    rw [e1, e2]
    rw [div_add_div _ _ (by norm_num) (by norm_num), div_neg_iff]
    right
    constructor
    · nlinarith
    · norm_num
  refine ⟨hneg, ?_⟩
  have hratio : density_ratio c8Conditions < 0 := by
    have : density_ratio c8Conditions = air_density c8Conditions / 1.225 := rfl
    rw [this]
    exact div_neg_of_neg_of_pos hneg (by norm_num)
  unfold density_altitude_m_fallback
  rw [if_pos hratio]

/-! ### Claims C1 and C9: drag-model selection -/

/-- A projectile with *both* ballistic coefficients populated. -/
def projBoth : Projectile :=
  { mass_grains := 175, diameter_inches := 0.308,
    bc_g1 := some 0.505, bc_g7 := some 0.243 }

/-- Claim C1, counterexample: with both `bc_g1` and `bc_g7` populated the
constructor does *not* fail — it silently selects the G7 family (the `if
bc_g7:` branch wins), returning an ok outcome rather than the
configuration error the claim requires. -/
theorem select_drag_model_both_populated_no_error :
    select_drag_model projBoth = Except.ok (DragModel.G7, 0.243) := by
  unfold select_drag_model
  rw [if_pos]
  · rfl
  · show (0.243 : ℝ) ≠ 0
    norm_num

/-- Claim C1, amended: a projectile with *neither* coefficient populated
(in the Python-truthiness sense) fails with the configuration error before any
integration; when `bc_g7` is populated the G7 family is selected — regardless
of `bc_g1` — with `bc_g7` as the coefficient; when only `bc_g1` is populated
the G1 family is selected with `bc_g1` as the coefficient. -/
theorem select_drag_model_spec (p : Projectile) :
    (¬ truthy p.bc_g7 → ¬ truthy p.bc_g1 →
      select_drag_model p = Except.error "Projectile must have either G1 or G7 BC") ∧
    (∀ b7, p.bc_g7 = some b7 → b7 ≠ 0 →
      select_drag_model p = Except.ok (DragModel.G7, b7)) ∧
    (¬ truthy p.bc_g7 → ∀ b1, p.bc_g1 = some b1 → b1 ≠ 0 →
      select_drag_model p = Except.ok (DragModel.G1, b1)) := by
  refine ⟨fun h7 h1 => ?_, fun b7 hb7 hne => ?_, fun h7 b1 hb1 hne => ?_⟩
  · unfold select_drag_model
    rw [if_neg h7, if_neg h1]
  · unfold select_drag_model
    have ht : truthy p.bc_g7 := by rw [hb7]; exact hne
    rw [if_pos ht, hb7]
    rfl
  · unfold select_drag_model
    have ht : truthy p.bc_g1 := by rw [hb1]; exact hne
    rw [if_neg h7, if_pos ht, hb1]
    rfl

/-- A projectile with only a G7 coefficient. -/
def projG7only : Projectile :=
  { mass_grains := 175, diameter_inches := 0.308, bc_g7 := some 0.243 }

/-- A projectile with neither coefficient populated. -/
def projNeither : Projectile :=
  { mass_grains := 175, diameter_inches := 0.308 }

/-- Witness for the amended claim C1, instantiating every hypothesis at
concrete projectiles. -/
theorem select_drag_model_spec_witness :
    select_drag_model projNeither = Except.error "Projectile must have either G1 or G7 BC" ∧
      select_drag_model projG7only = Except.ok (DragModel.G7, 0.243) := by
  constructor
  · exact (select_drag_model_spec projNeither).1 (fun h => h) (fun h => h)
  · exact (select_drag_model_spec projG7only).2.1 0.243 rfl (by norm_num)

/-- Claim C9: a ballistic coefficient equal to 0.0 is falsy in Python, hence
treated as unpopulated: with `bc_g7 = 0.0` and `bc_g1` absent the
configuration error is raised, and with `bc_g7 = 0.0` and `bc_g1` positive
the G1 family is selected. -/
theorem bc_zero_is_unpopulated (p : Projectile) (h7 : p.bc_g7 = some 0) :
    (p.bc_g1 = none →
      select_drag_model p = Except.error "Projectile must have either G1 or G7 BC") ∧
    (∀ v, p.bc_g1 = some v → 0 < v →
      select_drag_model p = Except.ok (DragModel.G1, v)) := by
  have h7f : ¬ truthy p.bc_g7 := by
    rw [h7]
    exact fun h => h rfl
  constructor
  · intro h1
    unfold select_drag_model
    rw [if_neg h7f, if_neg]
    rw [h1]
    exact fun h => h
  · intro v hv hpos
    unfold select_drag_model
    have ht : truthy p.bc_g1 := by rw [hv]; exact ne_of_gt hpos
    rw [if_neg h7f, if_pos ht, hv]
    rfl

/-- A projectile with `bc_g7 = 0.0` and `bc_g1` absent. -/
def projG7zero : Projectile :=
  { mass_grains := 175, diameter_inches := 0.308, bc_g7 := some 0 }

/-- A projectile with `bc_g7 = 0.0` and `bc_g1 = 0.505`. -/
def projG7zeroG1 : Projectile :=
  { mass_grains := 175, diameter_inches := 0.308, bc_g7 := some 0, bc_g1 := some 0.505 }

/-- Witness for claim C9 at concrete projectiles. -/
theorem bc_zero_is_unpopulated_witness :
    select_drag_model projG7zero = Except.error "Projectile must have either G1 or G7 BC" ∧
      select_drag_model projG7zeroG1 = Except.ok (DragModel.G1, 0.505) := by
  constructor
  · exact (bc_zero_is_unpopulated projG7zero rfl).1 rfl
  · exact (bc_zero_is_unpopulated projG7zeroG1 rfl).2 0.505 rfl (by norm_num)

/-! ### Solver data model (`ballistics/solver.py`) -/

/-- The `Rifle` dataclass. -/
structure Rifle where
  muzzle_velocity_mps : ℝ
  zero_range_m : ℝ := 100
  sight_height_mm : ℝ := 40
  twist_rate_inches : ℝ := 10
  twist_direction : String := "right"

/-- `Rifle.sight_height_m`. -/
noncomputable def Rifle.sight_height_m (r : Rifle) : ℝ :=
  r.sight_height_mm / 1000

/-- The `Wind` dataclass: speed and the compass bearing the wind blows from. -/
structure Wind where
  speed_mps : ℝ := 0
  direction_deg : ℝ := 0

/-- `math.radians`. -/
noncomputable def radians (d : ℝ) : ℝ :=
  d * Real.pi / 180

/-- `Wind.crosswind_component` (positive = from the right). -/
noncomputable def Wind.crosswind_component (w : Wind) : ℝ :=
  w.speed_mps * Real.sin (radians w.direction_deg)

/-- `Wind.headwind_component` (positive = headwind). -/
noncomputable def Wind.headwind_component (w : Wind) : ℝ :=
  w.speed_mps * Real.cos (radians w.direction_deg)

/-- The `ShootingConditions` dataclass. -/
structure ShootingConditions where
  projectile : Projectile
  rifle : Rifle
  atmosphere : AtmosphericConditions
  wind : Wind := {}
  latitude_deg : ℝ := 41.7
  azimuth_deg : ℝ := 0
  elevation_angle_deg : ℝ := 0

/-- The `TrajectoryPoint` dataclass. -/
@[ext]
structure TrajectoryPoint where
  time_s : ℝ
  range_m : ℝ
  drop_m : ℝ
  windage_m : ℝ
  velocity_mps : ℝ
  energy_j : ℝ
  mach : ℝ

/-- The linear interpolation `BallisticSolution.at_range` builds between two
bracketing samples. -/
noncomputable def interpPoint (pt next_pt : TrajectoryPoint) (r : ℝ) : TrajectoryPoint :=
  let t := (r - pt.range_m) / (next_pt.range_m - pt.range_m)
  { time_s := pt.time_s + t * (next_pt.time_s - pt.time_s)
    range_m := r
    drop_m := pt.drop_m + t * (next_pt.drop_m - pt.drop_m)
    windage_m := pt.windage_m + t * (next_pt.windage_m - pt.windage_m)
    velocity_mps := pt.velocity_mps + t * (next_pt.velocity_mps - pt.velocity_mps)
    energy_j := pt.energy_j + t * (next_pt.energy_j - pt.energy_j)
    mach := pt.mach + t * (next_pt.mach - pt.mach) }

/-- The scan of `BallisticSolution.at_range`: walk the consecutive pairs of the
trajectory (`trajectory[:-1]` paired with its successor) and interpolate in the
first bracketing pair; `none` when no pair brackets `r`. -/
noncomputable def atRangeAux (r : ℝ) : List TrajectoryPoint → Option TrajectoryPoint
  | pt :: next_pt :: rest =>
    if pt.range_m ≤ r ∧ r ≤ next_pt.range_m then some (interpPoint pt next_pt r)
    else atRangeAux r (next_pt :: rest)
  | _ => none

/-- The `BallisticSolution` dataclass. -/
structure BallisticSolution where
  trajectory : List TrajectoryPoint
  zero_angle_mrad : ℝ
  spin_drift_m : ℝ
  coriolis_vertical_m : ℝ
  coriolis_horizontal_m : ℝ

/-- `BallisticSolution.at_range`. -/
noncomputable def BallisticSolution.at_range (sol : BallisticSolution) (r : ℝ) :
    Option TrajectoryPoint :=
  atRangeAux r sol.trajectory

/-! ### Drag model and the integrator -/

/-- Modelled from the spec: `get_drag_coefficient` from `drag_models.py`, a
file of this repository that is not under `src/` (only its import is visible).
Per spec §4.2: piecewise-linear interpolation between the two nearest table
points, with Mach numbers below the lowest or above the highest table entry
clamped to the boundary entry's coefficient. -/
noncomputable def get_drag_coefficient (mach : ℝ) : List (ℝ × ℝ) → ℝ
  | [] => 0
  | [(_, cd)] => cd
  | (m1, cd1) :: (m2, cd2) :: rest =>
    if mach ≤ m1 then cd1
    else if mach ≤ m2 then cd1 + (cd2 - cd1) * (mach - m1) / (m2 - m1)
    else get_drag_coefficient mach ((m2, cd2) :: rest)

/-- The state a constructed `BallisticSolver` carries: the shooting conditions
with the selected drag table and ballistic coefficient. -/
structure SolverCtx where
  conditions : ShootingConditions
  drag_table : List (ℝ × ℝ)
  bc : ℝ

/-- `BallisticSolver.__init__`: store the conditions and select the drag
model, failing fast — before any integration — when neither coefficient is
populated.  The `G1_DRAG`/`G7_DRAG` tables live in the missing
`drag_models.py`, so they are taken as parameters. -/
noncomputable def mkBallisticSolver (g1Table g7Table : List (ℝ × ℝ))
    (c : ShootingConditions) : Except String SolverCtx :=
  match select_drag_model c.projectile with
  | Except.ok (DragModel.G7, b) => Except.ok ⟨c, g7Table, b⟩
  | Except.ok (DragModel.G1, b) => Except.ok ⟨c, g1Table, b⟩
  | Except.error msg => Except.error msg

/-- `BallisticSolver.GRAVITY`. -/
def GRAVITY : ℝ := 9.80665

/-- `BallisticSolver._drag_force`: BC-based retardation with the calibrated
constant 1600. -/
noncomputable def drag_force (s : SolverCtx) (velocity mach : ℝ) : ℝ :=
  density_ratio s.conditions.atmosphere * get_drag_coefficient mach s.drag_table *
    velocity ^ 2 / (s.bc * 1600)

/-- The integrator's loop state: position, velocity, elapsed time, the range
of the last recorded sample, and the samples recorded so far (most recent
first). -/
structure SimState where
  x : ℝ
  y : ℝ
  z : ℝ
  vx : ℝ
  vy : ℝ
  vz : ℝ
  t : ℝ
  lastX : ℝ
  traj : List TrajectoryPoint

/-- The fixed integrator time step (0.1 ms). -/
def dt : ℝ := 0.0001

/-- One iteration of the integration loop of
`BallisticSolver._integrate_trajectory`: drag against the air-relative
velocity, gravity, explicit Euler update of velocity then position, then
sample recording once the range has advanced by `step_m` past the last
recorded sample. -/
noncomputable def stepSim (s : SolverCtx) (step_m : ℝ) (st : SimState) : SimState :=
  let wind_x := -(s.conditions.wind.headwind_component)
  let wind_z := s.conditions.wind.crosswind_component
  let v_rel_x := st.vx - wind_x
  let v_rel_z := st.vz - wind_z
  let v_rel := Real.sqrt (v_rel_x ^ 2 + st.vy ^ 2 + v_rel_z ^ 2)
  let v_total := Real.sqrt (st.vx ^ 2 + st.vy ^ 2 + st.vz ^ 2)
  let mach := mach_number s.conditions.atmosphere v_rel
  let drag_acc := drag_force s v_rel mach
  let ax := if 0 < v_rel then -drag_acc * v_rel_x / v_rel else 0
  let ay := (if 0 < v_rel then -drag_acc * st.vy / v_rel else 0) - GRAVITY
  let az := if 0 < v_rel then -drag_acc * v_rel_z / v_rel else 0
  let vx' := st.vx + ax * dt
  let vy' := st.vy + ay * dt
  let vz' := st.vz + az * dt
  let x' := st.x + vx' * dt
  let y' := st.y + vy' * dt
  let z' := st.z + vz' * dt
  let t' := st.t + dt
  if st.lastX + step_m ≤ x' then
    { x := x', y := y', z := z', vx := vx', vy := vy', vz := vz', t := t', lastX := x',
      traj := { time_s := t', range_m := x', drop_m := y', windage_m := z',
                velocity_mps := v_total,
                energy_j := 0.5 * s.conditions.projectile.mass_kg * v_total ^ 2,
                mach := mach } :: st.traj }
  else
    { x := x', y := y', z := z', vx := vx', vy := vy', vz := vz', t := t',
      lastX := st.lastX, traj := st.traj }

/-- The guarded integration loop `while x < max_range_m and t < 10`, with
enough fuel that the guard, not the fuel, ends every run (the time guard
forces termination within 100000 iterations). -/
noncomputable def loopSim (s : SolverCtx) (max_range_m step_m : ℝ) :
    ℕ → SimState → SimState
  | 0, st => st
  | n + 1, st =>
    if st.x < max_range_m ∧ st.t < 10 then
      loopSim s max_range_m step_m n (stepSim s step_m st)
    else st

/-- The integrator's initial state: muzzle velocity resolved along the bore
angle, muzzle a sight height below the sight line. -/
noncomputable def initState (s : SolverCtx) (bore_angle : ℝ) : SimState :=
  { x := 0, y := -(s.conditions.rifle.sight_height_m), z := 0,
    vx := s.conditions.rifle.muzzle_velocity_mps * Real.cos bore_angle,
    vy := s.conditions.rifle.muzzle_velocity_mps * Real.sin bore_angle,
    vz := 0, t := 0, lastX := 0, traj := [] }

/-- `BallisticSolver._integrate_trajectory`. -/
noncomputable def integrate_trajectory (s : SolverCtx) (bore_angle max_range_m step_m : ℝ) :
    List TrajectoryPoint :=
  (loopSim s max_range_m step_m 100001 (initState s bore_angle)).traj.reverse

/-! ### Zero solver, corrections and `solve` -/

/-- Reading the drop "at (or just past) the zero range": the first sample at
or beyond the target range, else the last sample (`trajectory[-1]`); `none`
models the `IndexError` Python raises when the trajectory is empty. -/
noncomputable def dropAtZero (target_range_m : ℝ) (traj : List TrajectoryPoint) : Option ℝ :=
  match traj.find? (fun pt => decide (target_range_m ≤ pt.range_m)) with
  | some pt => some pt.drop_m
  | none => traj.getLast?.map TrajectoryPoint.drop_m

/-- The initial angle guess of `BallisticSolver._find_zero_angle`: a simple
parabolic approximation ignoring drag. -/
noncomputable def initialAngleGuess (s : SolverCtx) (target_range_m : ℝ) : ℝ :=
  let v0 := s.conditions.rifle.muzzle_velocity_mps
  let t_flight := target_range_m / v0
  let drop_simple := 0.5 * GRAVITY * t_flight ^ 2
  Real.arctan ((drop_simple + s.conditions.rifle.sight_height_m) / target_range_m)

/-- The iteration of `BallisticSolver._find_zero_angle`, instrumented with the
number of trajectory integrations performed.  Each round integrates to
`target + 10` m at 1 m sampling, reads the drop at (or just past) the zero
range, forms `error = -drop - sight_height`, adds half of
`atan(error / target)` to the angle, and stops once `|error| < 0.0001` m.
`none` models the `IndexError` raised when an integration yields no
samples. -/
noncomputable def zeroAux (s : SolverCtx) (target_range_m : ℝ) :
    ℕ → ℝ → Option ℝ × ℕ
  | 0, angle => (some angle, 0)
  | n + 1, angle =>
    match dropAtZero target_range_m
        (integrate_trajectory s angle (target_range_m + 10) 1) with
    | none => (none, 1)
    | some drop_at_zero =>
      let error := -drop_at_zero - s.conditions.rifle.sight_height_m
      let angle' := angle + Real.arctan (error / target_range_m) * 0.5
      if |error| < 0.0001 then (some angle', 1)
      else
        let rest := zeroAux s target_range_m n angle'
        (rest.1, rest.2 + 1)

/-- `BallisticSolver._find_zero_angle` (`none` = the `IndexError` case). -/
noncomputable def find_zero_angle (s : SolverCtx) (target_range_m : ℝ) : Option ℝ :=
  (zeroAux s target_range_m 10 (initialAngleGuess s target_range_m)).1

/-- The number of trajectory integrations `_find_zero_angle` performs. -/
noncomputable def zeroIntegrations (s : SolverCtx) (target_range_m : ℝ) : ℕ :=
  (zeroAux s target_range_m 10 (initialAngleGuess s target_range_m)).2

/-- `BallisticSolver._spin_drift` (the source ignores its `range_m`
parameter). -/
noncomputable def spin_drift (s : SolverCtx) (time_s : ℝ) : ℝ :=
  if time_s ≤ 0 then 0
  else
    let drift := 0.0254 * (1.5 + 1.2) * time_s ^ (1.83 : ℝ) / 100
    if s.conditions.rifle.twist_direction = "left" then -drift else drift

/-- `BallisticSolver.EARTH_ROTATION_RAD_S`. -/
def EARTH_ROTATION_RAD_S : ℝ := 7.2921159e-5

/-- `BallisticSolver._coriolis_effect`: (vertical, horizontal) deflection. -/
noncomputable def coriolis_effect (s : SolverCtx) (time_s range_m : ℝ) : ℝ × ℝ :=
  (EARTH_ROTATION_RAD_S * range_m * Real.cos (radians s.conditions.latitude_deg) *
      Real.sin (radians s.conditions.azimuth_deg) * time_s,
   EARTH_ROTATION_RAD_S * range_m * Real.sin (radians s.conditions.latitude_deg) * time_s)

/-- `BallisticSolver.solve`: find the zero angle, integrate at it out to
`max(target+100, zero_range+100)`, compute the scalar corrections at the
target range, and add per-sample spin drift and Coriolis terms to every
sample; `none` propagates the zero search's `IndexError` case. -/
noncomputable def solve (s : SolverCtx) (target_range_m step_m : ℝ) :
    Option BallisticSolution :=
  match find_zero_angle s s.conditions.rifle.zero_range_m with
  | none => none
  | some zero_angle =>
    let max_range := max (target_range_m + 100) (s.conditions.rifle.zero_range_m + 100)
    let traj := integrate_trajectory s zero_angle max_range step_m
    let target_pt := traj.find? (fun pt => decide (target_range_m ≤ pt.range_m))
    let scalar_sd := match target_pt with
      | some pt => spin_drift s pt.time_s
      | none => 0
    let scalar_cor := match target_pt with
      | some pt => coriolis_effect s pt.time_s target_range_m
      | none => (0, 0)
    let corrected := traj.map (fun pt =>
      let sd := spin_drift s pt.time_s
      let cor := coriolis_effect s pt.time_s pt.range_m
      { pt with windage_m := pt.windage_m + sd + cor.2, drop_m := pt.drop_m + cor.1 })
    some { trajectory := corrected, zero_angle_mrad := zero_angle * 1000,
           spin_drift_m := scalar_sd, coriolis_vertical_m := scalar_cor.1,
           coriolis_horizontal_m := scalar_cor.2 }

/-! ### Loop lemmas: termination and sample ordering -/

/-- The time step is positive. -/
theorem dt_pos : (0 : ℝ) < dt := by norm_num [dt]

/-- Each loop iteration advances the clock by exactly `dt`. -/
theorem stepSim_t (s : SolverCtx) (m : ℝ) (st : SimState) :
    (stepSim s m st).t = st.t + dt := by
  simp only [stepSim]
  split <;> split <;> rfl

/-- Characterization of one loop iteration's effect on the recorded samples:
either nothing is recorded and `lastX` is unchanged, or exactly one new sample
is prepended, carrying the new time, a range at least `step_m` past the old
`lastX`, with `lastX` updated to that range. -/
theorem stepSim_traj_cases (s : SolverCtx) (m : ℝ) (st : SimState) :
    ((stepSim s m st).traj = st.traj ∧ (stepSim s m st).lastX = st.lastX) ∨
      ∃ q : TrajectoryPoint, (stepSim s m st).traj = q :: st.traj ∧
        q.time_s = st.t + dt ∧ q.range_m = (stepSim s m st).x ∧
        (stepSim s m st).lastX = q.range_m ∧
        st.lastX + m ≤ q.range_m := by
  simp only [stepSim]
  split <;> split <;>
    first
      | exact Or.inl ⟨rfl, rfl⟩
      | (rename_i h; exact Or.inr ⟨_, rfl, rfl, rfl, rfl, h⟩)

/-- Once the loop guard is false the loop is inert. -/
theorem loopSim_stop (s : SolverCtx) (maxR m : ℝ) :
    ∀ (n : ℕ) (st : SimState), ¬(st.x < maxR ∧ st.t < 10) →
      loopSim s maxR m n st = st := by
  intro n st h
  cases n with
  | zero => rfl
  | succ k =>
    unfold loopSim
    rw [if_neg h]

/-- Running the loop for `a + b` steps of fuel is running it for `a` then for
`b`. -/
theorem loopSim_add (s : SolverCtx) (maxR m : ℝ) :
    ∀ (a b : ℕ) (st : SimState),
      loopSim s maxR m (a + b) st = loopSim s maxR m b (loopSim s maxR m a st) := by
  intro a
  induction a with
  | zero =>
    intro b st
    rw [Nat.zero_add]
    rfl
  | succ k ih =>
    intro b st
    have hk : k + 1 + b = (k + b) + 1 := by omega
    rw [hk]
    by_cases h : st.x < maxR ∧ st.t < 10
    · show (if st.x < maxR ∧ st.t < 10 then loopSim s maxR m (k + b) (stepSim s m st) else st) = _
      rw [if_pos h]
      have h2 : loopSim s maxR m (k + 1) st = loopSim s maxR m k (stepSim s m st) := by
        show (if st.x < maxR ∧ st.t < 10 then loopSim s maxR m k (stepSim s m st) else st) = _
        rw [if_pos h]
      rw [h2]
      exact ih b (stepSim s m st)
    · show (if st.x < maxR ∧ st.t < 10 then loopSim s maxR m (k + b) (stepSim s m st) else st) = _
      rw [if_neg h]
      have h2 : loopSim s maxR m (k + 1) st = st := loopSim_stop s maxR m (k + 1) st h
      rw [h2]
      exact (loopSim_stop s maxR m b st h).symm

/-- Once the accumulated step count would push the clock to the 10 s ceiling,
extra fuel changes nothing: the loop has already stopped. -/
theorem loopSim_timeout (s : SolverCtx) (maxR m : ℝ) :
    ∀ (n : ℕ) (st : SimState) (k : ℕ), 10 ≤ st.t + n * dt →
      loopSim s maxR m (n + k) st = loopSim s maxR m n st := by
  intro n
  induction n with
  | zero =>
    intro st k h
    rw [Nat.cast_zero, zero_mul, add_zero] at h
    rw [Nat.zero_add]
    have hstop : ¬(st.x < maxR ∧ st.t < 10) := fun hc => absurd hc.2 (not_lt.mpr h)
    rw [loopSim_stop s maxR m k st hstop]
    rfl
  | succ p ih =>
    intro st k h
    have hp : p + 1 + k = (p + k) + 1 := by omega
    rw [hp]
    by_cases hc : st.x < maxR ∧ st.t < 10
    · show (if st.x < maxR ∧ st.t < 10 then loopSim s maxR m (p + k) (stepSim s m st) else st) = _
      rw [if_pos hc]
      have h2 : loopSim s maxR m (p + 1) st = loopSim s maxR m p (stepSim s m st) := by
        show (if st.x < maxR ∧ st.t < 10 then loopSim s maxR m p (stepSim s m st) else st) = _
        rw [if_pos hc]
      rw [h2]
      apply ih
      rw [stepSim_t]
      push_cast at h ⊢
      linarith
    · show (if st.x < maxR ∧ st.t < 10 then loopSim s maxR m (p + k) (stepSim s m st) else st) = _
      rw [if_neg hc]
      exact (loopSim_stop s maxR m (p + 1) st hc).symm

/-- Claim C7: the integration loop terminates for every input.  First
conjunct: starting from the muzzle state, 100000 iterations already reach a
fixed point (each iteration adds exactly `dt = 0.0001` s, so by then the
10-second ceiling `t < 10` has failed if the range guard has not failed
earlier) — the loop never runs more than 100000 iterations.  Second conjunct:
the loop stops as soon as the downrange distance reaches `max_range_m` or the
elapsed time reaches 10 s. -/
theorem integration_loop_bounded (s : SolverCtx) (angle maxR m : ℝ) :
    (∀ k : ℕ, loopSim s maxR m (100000 + k) (initState s angle) =
      loopSim s maxR m 100000 (initState s angle)) ∧
    (∀ (n : ℕ) (st : SimState), maxR ≤ st.x ∨ 10 ≤ st.t →
      loopSim s maxR m n st = st) := by
  constructor
  · intro k
    apply loopSim_timeout
    show (10 : ℝ) ≤ (initState s angle).t + 100000 * dt
    have : (initState s angle).t = 0 := rfl
    rw [this]
    norm_num [dt]
  · intro n st h
    apply loopSim_stop
    rintro ⟨h1, h2⟩
    cases h with
    | inl hx => exact absurd h1 (not_lt.mpr hx)
    | inr ht => exact absurd h2 (not_lt.mpr ht)

/-- A trivial concrete solver context used by witnesses. -/
noncomputable def trivCtx : SolverCtx :=
  ⟨⟨projG7only, { muzzle_velocity_mps := 800 }, stdConditions, {}, 41.7, 0, 0⟩,
    [(0, 0.5)], 0.243⟩

/-- A loop state whose clock already sits at the 10 s ceiling. -/
def haltedState : SimState :=
  ⟨0, 0, 0, 0, 0, 0, 10, 0, []⟩

/-- Witness for claim C7 at a concrete solver context, fuel and state. -/
theorem integration_loop_bounded_witness :
    loopSim trivCtx 110 10 (100000 + 7) (initState trivCtx 0) =
      loopSim trivCtx 110 10 100000 (initState trivCtx 0) ∧
    loopSim trivCtx 110 10 5 haltedState = haltedState := by
  constructor
  · exact (integration_loop_bounded trivCtx 0 110 10).1 7
  · exact (integration_loop_bounded trivCtx 0 110 10).2 5 haltedState
      (Or.inr (by norm_num [haltedState]))

/-! ### Claim C4: strict ordering of trajectory samples -/

/-- Strict ordering of two consecutive samples: both range and time
increase. -/
def sampleLt (a b : TrajectoryPoint) : Prop :=
  a.range_m < b.range_m ∧ a.time_s < b.time_s

/-- The integration-loop invariant behind sample ordering: the accumulator
(most recent sample first) is strictly decreasing in range and time, its head
does not exceed the current `lastX` and clock. -/
def MonoInv (st : SimState) : Prop :=
  (∀ p : TrajectoryPoint, st.traj.head? = some p →
    p.range_m ≤ st.lastX ∧ p.time_s ≤ st.t) ∧
  st.traj.Chain' (fun a b => sampleLt b a)

/-- One loop iteration preserves the ordering invariant (for a positive
sampling step). -/
theorem monoInv_step (s : SolverCtx) (m : ℝ) (hm : 0 < m) (st : SimState)
    (h : MonoInv st) : MonoInv (stepSim s m st) := by
  obtain ⟨hhead, hchain⟩ := h
  have ht := stepSim_t s m st
  have hdt := dt_pos
  rcases stepSim_traj_cases s m st with ⟨htraj, hlast⟩ | ⟨q, htraj, hqt, _, hlast, hbound⟩
  · refine ⟨?_, ?_⟩
    · intro p hp
      rw [htraj] at hp
      obtain ⟨h1, h2⟩ := hhead p hp
      refine ⟨by rw [hlast]; exact h1, ?_⟩
      rw [ht]
      linarith
    · rw [htraj]
      exact hchain
  · refine ⟨?_, ?_⟩
    · intro p hp
      rw [htraj] at hp
      simp only [List.head?_cons, Option.some.injEq] at hp
      subst hp
      exact ⟨le_of_eq hlast.symm, by rw [ht, hqt]⟩
    · rw [htraj, List.chain'_cons']
      refine ⟨?_, hchain⟩
      intro b hb
      obtain ⟨h1, h2⟩ := hhead b hb
      constructor
      · linarith
      · rw [hqt]
        linarith

/-- The loop preserves the ordering invariant. -/
theorem monoInv_loop (s : SolverCtx) (maxR m : ℝ) (hm : 0 < m) :
    ∀ (n : ℕ) (st : SimState), MonoInv st → MonoInv (loopSim s maxR m n st) := by
  intro n
  induction n with
  | zero => exact fun st h => h
  | succ k ih =>
    intro st h
    show MonoInv (if st.x < maxR ∧ st.t < 10 then loopSim s maxR m k (stepSim s m st) else st)
    by_cases hc : st.x < maxR ∧ st.t < 10
    · rw [if_pos hc]
      exact ih (stepSim s m st) (monoInv_step s m hm st h)
    · rw [if_neg hc]
      exact h

/-- Every trajectory the integrator produces (with a positive sampling step)
is strictly increasing in range and time. -/
theorem integrate_trajectory_chain (s : SolverCtx) (angle maxR m : ℝ) (hm : 0 < m) :
    List.Chain' sampleLt (integrate_trajectory s angle maxR m) := by
  have hInv : MonoInv (loopSim s maxR m 100001 (initState s angle)) := by
    apply monoInv_loop s maxR m hm
    constructor
    · intro p hp
      exact absurd hp (by simp [initState])
    · show List.Chain' _ ([] : List TrajectoryPoint)
      exact List.chain'_nil
  show List.Chain' sampleLt (loopSim s maxR m 100001 (initState s angle)).traj.reverse
  rw [List.chain'_reverse]
  exact hInv.2

/-- Claim C4: samples strictly increase in both range and time with sample
index — for the raw integrator output at any bore angle, maximum range and
positive sampling step, and hence for the sample sequence of every `Solution`
that `solve` produces. -/
theorem trajectory_strictly_monotone (s : SolverCtx) (angle maxR m target : ℝ)
    (hm : 0 < m) :
    List.Chain' sampleLt (integrate_trajectory s angle maxR m) ∧
    (∀ sol : BallisticSolution, solve s target m = some sol →
      List.Chain' sampleLt sol.trajectory) := by
  refine ⟨integrate_trajectory_chain s angle maxR m hm, ?_⟩
  intro sol hsol
  unfold solve at hsol
  cases hz : find_zero_angle s s.conditions.rifle.zero_range_m with
  | none =>
    rw [hz] at hsol
    exact absurd hsol (by simp)
  | some za =>
    rw [hz] at hsol
    simp only [Option.some.injEq] at hsol
    subst hsol
    show List.Chain' sampleLt (List.map _ (integrate_trajectory s za _ m))
    rw [List.chain'_map]
    exact (integrate_trajectory_chain s za _ m hm).imp (fun a b hab => hab)

/-- Witness for claim C4 at a concrete context: positive sampling step, and
the resulting chain property of the integrator output. -/
theorem trajectory_strictly_monotone_witness :
    (0 : ℝ) < 10 ∧ List.Chain' sampleLt (integrate_trajectory trivCtx 0 110 10) :=
  ⟨by norm_num, (trajectory_strictly_monotone trivCtx 0 110 10 800 (by norm_num)).1⟩

/-! ### Claims C5 and C10: range queries on a Solution -/

/-- Interpolating at the left endpoint's own range returns the left sample
unchanged (the interpolation coefficient is 0). -/
theorem interpPoint_left (a b : TrajectoryPoint) : interpPoint a b a.range_m = a := by
  ext <;> simp only [interpPoint] <;> ring

/-- Interpolating at the right endpoint's own range returns the right sample
unchanged (the interpolation coefficient is 1, for distinct ranges). -/
theorem interpPoint_right (a b : TrajectoryPoint) (h : b.range_m - a.range_m ≠ 0) :
    interpPoint a b b.range_m = b := by
  ext <;> simp only [interpPoint, div_self h] <;> ring

/-- A query strictly below every sample's range finds no bracketing pair. -/
theorem atRangeAux_below (r : ℝ) :
    ∀ l : List TrajectoryPoint, (∀ pt ∈ l, r < pt.range_m) → atRangeAux r l = none := by
  intro l
  induction l with
  | nil => exact fun _ => rfl
  | cons a t ih =>
    intro h
    cases t with
    | nil => rfl
    | cons b t2 =>
      show (if a.range_m ≤ r ∧ r ≤ b.range_m then some (interpPoint a b r)
            else atRangeAux r (b :: t2)) = none
      rw [if_neg]
      · exact ih (fun pt hpt => h pt (List.mem_cons_of_mem a hpt))
      · rintro ⟨h1, _⟩
        exact absurd h1 (not_le.mpr (h a (List.mem_cons_self a _)))

/-- A query strictly above every sample's range finds no bracketing pair. -/
theorem atRangeAux_above (r : ℝ) :
    ∀ l : List TrajectoryPoint, (∀ pt ∈ l, pt.range_m < r) → atRangeAux r l = none := by
  intro l
  induction l with
  | nil => exact fun _ => rfl
  | cons a t ih =>
    intro h
    cases t with
    | nil => rfl
    | cons b t2 =>
      show (if a.range_m ≤ r ∧ r ≤ b.range_m then some (interpPoint a b r)
            else atRangeAux r (b :: t2)) = none
      rw [if_neg]
      · exact ih (fun pt hpt => h pt (List.mem_cons_of_mem a hpt))
      · rintro ⟨_, h2⟩
        exact absurd h2 (not_le.mpr (h b (List.mem_cons_of_mem a (List.mem_cons_self b _))))

/-- On a strictly range-sorted trajectory with at least two samples, querying
at any existing sample's own range returns that sample exactly. -/
theorem atRangeAux_node :
    ∀ l : List TrajectoryPoint, l.Pairwise (fun a b => a.range_m < b.range_m) →
      2 ≤ l.length → ∀ pt ∈ l, atRangeAux pt.range_m l = some pt := by
  intro l
  induction l with
  | nil => intro _ h2; simp at h2
  | cons a t ih =>
    intro hpw h2 pt hpt
    cases t with
    | nil => simp at h2
    | cons b t2 =>
      have hab : a.range_m < b.range_m := (List.pairwise_cons.mp hpw).1 b
        (List.mem_cons_self b _)
      rcases List.mem_cons.mp hpt with rfl | hpt'
      · show (if pt.range_m ≤ pt.range_m ∧ pt.range_m ≤ b.range_m then
              some (interpPoint pt b pt.range_m) else atRangeAux pt.range_m (b :: t2)) = some pt
        rw [if_pos ⟨le_refl _, le_of_lt hab⟩, interpPoint_left]
      · rcases List.mem_cons.mp hpt' with rfl | hpt2
        · show (if a.range_m ≤ pt.range_m ∧ pt.range_m ≤ pt.range_m then
                some (interpPoint a pt pt.range_m) else atRangeAux pt.range_m (pt :: t2)) = some pt
          rw [if_pos ⟨le_of_lt hab, le_refl _⟩,
            interpPoint_right a pt (by rw [sub_ne_zero]; exact ne_of_gt hab)]
        · have hbpt : b.range_m < pt.range_m :=
            (List.pairwise_cons.mp (List.pairwise_cons.mp hpw).2).1 pt hpt2
          show (if a.range_m ≤ pt.range_m ∧ pt.range_m ≤ b.range_m then
                some (interpPoint a b pt.range_m) else atRangeAux pt.range_m (b :: t2)) = some pt
          rw [if_neg]
          · refine ih (List.pairwise_cons.mp hpw).2 ?_ pt hpt'
            cases t2 with
            | nil => exact absurd hpt2 (List.not_mem_nil pt)
            | cons c t3 => simp
          · rintro ⟨_, hle⟩
            exact absurd hle (not_le.mpr hbpt)

/-- Claim C5, counterexample input: a Solution holding a single sample. -/
def soloSolution : BallisticSolution :=
  ⟨[⟨1, 50, -2, 0, 700, 100, 2⟩], 0, 0, 0, 0⟩

/-- Claim C5, counterexample: `soloSolution` holds the sample with range 50,
yet `at_range 50` returns `none` rather than that sample's fields — so the
claim fails for Solutions with fewer than two samples. -/
theorem at_range_single_sample_not_exact :
    soloSolution.trajectory = [⟨1, 50, -2, 0, 700, 100, 2⟩] ∧
      soloSolution.at_range 50 = none :=
  ⟨rfl, rfl⟩

/-- Claim C5, amended: for every Solution whose trajectory holds at least two
samples with strictly increasing ranges, `at_range` at an existing sample's
range returns exactly that sample, and `at_range` strictly outside the sampled
span returns `none`. -/
theorem at_range_exact_and_outside_none (sol : BallisticSolution)
    (hsort : sol.trajectory.Chain' (fun a b => a.range_m < b.range_m))
    (h2 : 2 ≤ sol.trajectory.length) :
    (∀ pt ∈ sol.trajectory, sol.at_range pt.range_m = some pt) ∧
    (∀ r : ℝ, ((∀ pt ∈ sol.trajectory, r < pt.range_m) ∨
        (∀ pt ∈ sol.trajectory, pt.range_m < r)) →
      sol.at_range r = none) := by
  haveI : IsTrans TrajectoryPoint (fun a b => a.range_m < b.range_m) :=
    ⟨fun _ _ _ h1 h2 => lt_trans h1 h2⟩
  have hpw : sol.trajectory.Pairwise (fun a b => a.range_m < b.range_m) :=
    List.chain'_iff_pairwise.mp hsort
  constructor
  · exact atRangeAux_node sol.trajectory hpw h2
  · intro r hr
    cases hr with
    | inl h => exact atRangeAux_below r sol.trajectory h
    | inr h => exact atRangeAux_above r sol.trajectory h

/-- A concrete two-sample Solution used by the claim C5 witness. -/
def duoSolution : BallisticSolution :=
  ⟨[⟨1, 50, -2, 0, 700, 100, 2⟩, ⟨2, 100, -4, 1, 600, 80, 1.5⟩], 0, 0, 0, 0⟩

/-- Witness for the amended claim C5 at a concrete two-sample Solution:
querying at the first sample's range returns it exactly, and querying past
the sampled span returns `none`. -/
theorem at_range_exact_and_outside_none_witness :
    duoSolution.at_range 50 = some ⟨1, 50, -2, 0, 700, 100, 2⟩ ∧
      duoSolution.at_range 200 = none := by
  have hsort : duoSolution.trajectory.Chain' (fun a b => a.range_m < b.range_m) := by
    show List.Chain' _ [_, _]
    rw [List.chain'_cons]
    exact ⟨by norm_num, List.chain'_singleton _⟩
  have h2 : 2 ≤ duoSolution.trajectory.length := by
    show 2 ≤ 2
    exact le_refl 2
  constructor
  · exact (at_range_exact_and_outside_none duoSolution hsort h2).1
      ⟨1, 50, -2, 0, 700, 100, 2⟩ (List.mem_cons_self _ _)
  · refine (at_range_exact_and_outside_none duoSolution hsort h2).2 200 (Or.inr ?_)
    intro pt hpt
    rcases List.mem_cons.mp hpt with rfl | hpt'
    · norm_num
    · rcases List.mem_cons.mp hpt' with rfl | hpt2
      · norm_num
      · exact absurd hpt2 (List.not_mem_nil pt)

/-- Claim C10: a Solution whose trajectory holds fewer than two samples
answers every range query — including one at the single sample's own range —
with `none` (the scan pairs `trajectory[:-1]` with successors, and there is no
pair). -/
theorem at_range_short_trajectory (sol : BallisticSolution)
    (h : sol.trajectory.length < 2) (r : ℝ) : sol.at_range r = none := by
  show atRangeAux r sol.trajectory = none
  rcases htj : sol.trajectory with _ | ⟨a, _ | ⟨b, t2⟩⟩
  · rfl
  · rfl
  · rw [htj] at h
    simp only [List.length_cons] at h
    omega

/-- Witness for claim C10 at the concrete single-sample Solution, querying at
the sample's own range and at another range. -/
theorem at_range_short_trajectory_witness :
    soloSolution.trajectory.length < 2 ∧ soloSolution.at_range 75 = none := by
  have h : soloSolution.trajectory.length < 2 := by
    show 1 < 2
    norm_num
  exact ⟨h, at_range_short_trajectory soloSolution h 75⟩

/-! ### Claim C6: wind reversed by 180° -/

/-- The sample-to-sample relation claim C6 asserts between two integrations
whose winds are rotated by 180°: ranges, times, drops, velocities, energies
and Mach numbers agree, while the (wind-induced, pre-correction) windage is
negated. -/
def mirrorRel (a b : TrajectoryPoint) : Prop :=
  a.time_s = b.time_s ∧ a.range_m = b.range_m ∧ a.drop_m = b.drop_m ∧
  a.velocity_mps = b.velocity_mps ∧ a.energy_j = b.energy_j ∧ a.mach = b.mach ∧
  a.windage_m = -b.windage_m

/-- The same solver context with the wind direction rotated by 180° at the
same speed. -/
noncomputable def rotWind (s : SolverCtx) : SolverCtx :=
  { s with conditions :=
      { s.conditions with wind :=
          ⟨s.conditions.wind.speed_mps, s.conditions.wind.direction_deg + 180⟩ } }

/-- Rotating the direction by 180° negates the headwind component. -/
theorem headwind_rot (w : Wind) :
    Wind.headwind_component ⟨w.speed_mps, w.direction_deg + 180⟩ =
      -(w.headwind_component) := by
  show w.speed_mps * Real.cos ((w.direction_deg + 180) * Real.pi / 180) = _
  rw [show (w.direction_deg + 180) * Real.pi / 180 =
    w.direction_deg * Real.pi / 180 + Real.pi by ring, Real.cos_add_pi]
  show _ = -(w.speed_mps * Real.cos (w.direction_deg * Real.pi / 180))
  ring

/-- Rotating the direction by 180° negates the crosswind component. -/
theorem crosswind_rot (w : Wind) :
    Wind.crosswind_component ⟨w.speed_mps, w.direction_deg + 180⟩ =
      -(w.crosswind_component) := by
  show w.speed_mps * Real.sin ((w.direction_deg + 180) * Real.pi / 180) = _
  rw [show (w.direction_deg + 180) * Real.pi / 180 =
    w.direction_deg * Real.pi / 180 + Real.pi by ring, Real.sin_add_pi]
  show _ = -(w.speed_mps * Real.sin (w.direction_deg * Real.pi / 180))
  ring

/-- The mirror relation between the two loop states: equal downrange and
vertical data, negated lateral data, and pointwise mirrored samples. -/
def MirrorSt (st st' : SimState) : Prop :=
  st.x = st'.x ∧ st.y = st'.y ∧ st.z = -st'.z ∧ st.vx = st'.vx ∧ st.vy = st'.vy ∧
  st.vz = -st'.vz ∧ st.t = st'.t ∧ st.lastX = st'.lastX ∧
  List.Forall₂ mirrorRel st.traj st'.traj

/-- With a pure crosswind (zero headwind component), one integration step in
the original context and one in the 180°-rotated context preserve the mirror
relation. -/
theorem stepSim_mirror (s : SolverCtx) (m : ℝ)
    (hhw : s.conditions.wind.headwind_component = 0)
    (st st' : SimState) (h : MirrorSt st st') :
    MirrorSt (stepSim s m st) (stepSim (rotWind s) m st') := by
  obtain ⟨hx, hy, hz, hvx, hvy, hvz, ht, hl, htr⟩ := h
  have hwind : (rotWind s).conditions.wind =
      ⟨s.conditions.wind.speed_mps, s.conditions.wind.direction_deg + 180⟩ := rfl
  have hW : (rotWind s).conditions.wind.headwind_component =
      -(s.conditions.wind.headwind_component) := by
    rw [hwind, headwind_rot]
  have hC : (rotWind s).conditions.wind.crosswind_component =
      -(s.conditions.wind.crosswind_component) := by
    rw [hwind, crosswind_rot]
  have hdf : drag_force (rotWind s) = drag_force s := rfl
  have hatm : (rotWind s).conditions.atmosphere = s.conditions.atmosphere := rfl
  have hmass : (rotWind s).conditions.projectile = s.conditions.projectile := rfl
  simp only [stepSim]
  rw [hW, hC, hdf, hatm, hmass, hhw]
  simp only [neg_zero, sub_zero]
  rw [hx, hy, hz, hvx, hvy, hvz, ht, hl]
  rw [show (-st'.vz - s.conditions.wind.crosswind_component) ^ 2 =
    (st'.vz - -s.conditions.wind.crosswind_component) ^ 2 by ring]
  rw [show (-st'.vz : ℝ) ^ 2 = st'.vz ^ 2 by ring]
  split <;> split <;>
    refine ⟨rfl, rfl, by ring, rfl, rfl, by ring, rfl, rfl, ?_⟩ <;>
    first
      | exact htr
      | exact List.Forall₂.cons ⟨rfl, rfl, rfl, rfl, rfl, rfl, by ring⟩ htr

/-- The mirror relation is preserved by the whole guarded loop. -/
theorem loopSim_mirror (s : SolverCtx) (maxR m : ℝ)
    (hhw : s.conditions.wind.headwind_component = 0) :
    ∀ (n : ℕ) (st st' : SimState), MirrorSt st st' →
      MirrorSt (loopSim s maxR m n st) (loopSim (rotWind s) maxR m n st') := by
  intro n
  induction n with
  | zero => exact fun st st' h => h
  | succ k ih =>
    intro st st' h
    show MirrorSt
      (if st.x < maxR ∧ st.t < 10 then loopSim s maxR m k (stepSim s m st) else st)
      (if st'.x < maxR ∧ st'.t < 10 then
        loopSim (rotWind s) maxR m k (stepSim (rotWind s) m st') else st')
    have hcond : (st.x < maxR ∧ st.t < 10) = (st'.x < maxR ∧ st'.t < 10) := by
      rw [h.1, h.2.2.2.2.2.2.1]
    by_cases hc : st'.x < maxR ∧ st'.t < 10
    · rw [if_pos (hcond ▸ hc), if_pos hc]
      exact ih _ _ (stepSim_mirror s m hhw st st' h)
    · rw [if_neg (hcond ▸ hc), if_neg hc]
      exact h

/-- Claim C6, amended: when the wind is a pure crosswind (headwind component
zero), rotating its direction by 180° at the same speed mirrors the
integrator's output pointwise — every sample keeps its range, time, drop,
velocity, energy and Mach number, and its (wind-induced, pre-correction)
windage is negated. -/
theorem wind_reversal_pure_crosswind_mirror (s : SolverCtx) (angle maxR m : ℝ)
    (hhw : s.conditions.wind.headwind_component = 0) :
    List.Forall₂ mirrorRel (integrate_trajectory s angle maxR m)
      (integrate_trajectory (rotWind s) angle maxR m) := by
  have hinit : MirrorSt (initState s angle) (initState (rotWind s) angle) := by
    refine ⟨rfl, rfl, ?_, rfl, rfl, ?_, rfl, rfl, List.Forall₂.nil⟩ <;>
      · show (0 : ℝ) = -(0 : ℝ)
        norm_num
  have hfin := loopSim_mirror s maxR m hhw 100001 _ _ hinit
  exact List.rel_reverse hfin.2.2.2.2.2.2.2.2

/-- A concrete pure-crosswind context: 3 m/s wind from 90° (full crosswind
from the right). -/
noncomputable def crossCtx : SolverCtx :=
  ⟨⟨projG7only, { muzzle_velocity_mps := 800 }, stdConditions, ⟨3, 90⟩, 41.7, 0, 0⟩,
    [(0, 0.5)], 0.243⟩

/-- Witness for the amended claim C6: the 90° wind has zero headwind
component, and the mirrored-trajectory conclusion holds at this context. -/
theorem wind_reversal_pure_crosswind_mirror_witness :
    crossCtx.conditions.wind.headwind_component = 0 ∧
      List.Forall₂ mirrorRel (integrate_trajectory crossCtx 0 110 10)
        (integrate_trajectory (rotWind crossCtx) 0 110 10) := by
  have h0 : crossCtx.conditions.wind.headwind_component = 0 := by
    show (3 : ℝ) * Real.cos ((90 : ℝ) * Real.pi / 180) = 0
    rw [show (90 : ℝ) * Real.pi / 180 = Real.pi / 2 by ring, Real.cos_pi_div_two, mul_zero]
  exact ⟨h0, wind_reversal_pure_crosswind_mirror crossCtx 0 110 10 h0⟩

/-- Interpolation-free lookup: a single-entry drag table is constant (the
boundary clamp returns its only coefficient for every Mach number). -/
theorem get_drag_single (mach m0 c : ℝ) :
    get_drag_coefficient mach [(m0, c)] = c := rfl

/-- Rational bounds on the standard-atmosphere density ratio. -/
theorem density_ratio_std_bounds :
    1 < density_ratio stdConditions ∧ density_ratio stdConditions < 1.000011 := by
  rw [density_ratio_std_eq]
  norm_num

/-- Whether one iteration records a sample is decided by comparing the new
downrange position against `lastX + step_m`. -/
theorem stepSim_traj_dichotomy (s : SolverCtx) (m : ℝ) (st : SimState) :
    (¬ st.lastX + m ≤ (stepSim s m st).x → (stepSim s m st).traj = st.traj) ∧
    (st.lastX + m ≤ (stepSim s m st).x → ∃ q, (stepSim s m st).traj = q :: st.traj) := by
  simp only [stepSim]
  split <;> split
  · rename_i h
    exact ⟨fun hn => absurd h hn, fun _ => ⟨_, rfl⟩⟩
  · rename_i h
    exact ⟨fun _ => rfl, fun hle => absurd hle h⟩
  · rename_i h
    exact ⟨fun hn => absurd h hn, fun _ => ⟨_, rfl⟩⟩
  · rename_i h
    exact ⟨fun _ => rfl, fun hle => absurd hle h⟩

/-- When the first iteration already reaches the maximum range, the loop with
full fuel is exactly one step. -/
theorem loopSim_one_then_stop (s : SolverCtx) (maxR m : ℝ) (st : SimState)
    (h0 : st.x < maxR ∧ st.t < 10) (h1 : maxR ≤ (stepSim s m st).x) :
    loopSim s maxR m 100001 st = stepSim s m st := by
  have hsplit : (100001 : ℕ) = 1 + 100000 := by norm_num
  rw [hsplit, loopSim_add]
  have h2 : loopSim s maxR m 1 st = stepSim s m st := by
    show (if st.x < maxR ∧ st.t < 10 then loopSim s maxR m 0 (stepSim s m st) else st) = _
    rw [if_pos h0]
    rfl
  rw [h2]
  exact loopSim_stop s maxR m 100000 (stepSim s m st)
    (fun hc => absurd hc.1 (not_lt.mpr h1))

/-- Downrange position after the first iteration from the muzzle at bore
angle 0, for a pure head- or tailwind `W` (crosswind 0): the projectile
travels `(v0 - drag·dt)·dt`, with drag evaluated at air-relative speed
`v0 + W`. -/
theorem first_step_x (s : SolverCtx) (m W v0 : ℝ)
    (hW : s.conditions.wind.headwind_component = W)
    (hC : s.conditions.wind.crosswind_component = 0)
    (hv0 : s.conditions.rifle.muzzle_velocity_mps = v0)
    (hpos : 0 < v0 + W) :
    (stepSim s m (initState s 0)).x =
      (v0 - drag_force s (v0 + W)
        (mach_number s.conditions.atmosphere (v0 + W)) * dt) * dt := by
  simp only [stepSim, initState, hv0, hW, hC, Real.cos_zero, Real.sin_zero,
    mul_one, mul_zero, sub_zero]
  rw [show (v0 : ℝ) - -W = v0 + W by ring]
  rw [show ((v0 + W) ^ 2 + (0 : ℝ) ^ 2 + (0 : ℝ) ^ 2 : ℝ) = (v0 + W) ^ 2 by ring]
  rw [Real.sqrt_sq hpos.le]
  rw [if_pos hpos]
  split <;>
    · dsimp only
      rw [mul_div_assoc, div_self (ne_of_gt hpos), mul_one]
      ring

/-- A context with a pure 100 m/s *headwind* (direction 0°), muzzle velocity
800 m/s, a flat unit drag table and BC 0.5: with wind direction rotated by
180° the air-relative speed changes from 900 to 700 m/s, so drag — and with
it the whole downrange profile — changes. -/
noncomputable def headCtxA : SolverCtx :=
  ⟨⟨projG7only, { muzzle_velocity_mps := 800 }, stdConditions, ⟨100, 0⟩, 41.7, 0, 0⟩,
    [(0, 0.5)], 0.5⟩

/-- The 0° wind of `headCtxA` is a pure headwind of 100 m/s. -/
theorem headCtxA_headwind : headCtxA.conditions.wind.headwind_component = 100 := by
  show (100 : ℝ) * Real.cos ((0 : ℝ) * Real.pi / 180) = 100
  rw [zero_mul, zero_div, Real.cos_zero, mul_one]

/-- The 0° wind of `headCtxA` has no crosswind component. -/
theorem headCtxA_crosswind : headCtxA.conditions.wind.crosswind_component = 0 := by
  show (100 : ℝ) * Real.sin ((0 : ℝ) * Real.pi / 180) = 0
  rw [zero_mul, zero_div, Real.sin_zero, mul_zero]

/-- After the 180° rotation the headwind component is −100 m/s (a tailwind). -/
theorem headCtxB_headwind :
    (rotWind headCtxA).conditions.wind.headwind_component = -100 := by
  have h1 : (rotWind headCtxA).conditions.wind = ⟨(100 : ℝ), (0 : ℝ) + 180⟩ := rfl
  rw [h1]
  show (100 : ℝ) * Real.cos (((0 : ℝ) + 180) * Real.pi / 180) = -100
  rw [show ((0 : ℝ) + 180) * Real.pi / 180 = Real.pi by ring, Real.cos_pi]
  norm_num

/-- After the 180° rotation the crosswind component is still zero. -/
theorem headCtxB_crosswind :
    (rotWind headCtxA).conditions.wind.crosswind_component = 0 := by
  have h1 : (rotWind headCtxA).conditions.wind = ⟨(100 : ℝ), (0 : ℝ) + 180⟩ := rfl
  rw [h1]
  show (100 : ℝ) * Real.sin (((0 : ℝ) + 180) * Real.pi / 180) = 0
  rw [show ((0 : ℝ) + 180) * Real.pi / 180 = Real.pi by ring, Real.sin_pi, mul_zero]

/-- Drag in `headCtxA`: flat coefficient 0.5, BC 0.5, standard atmosphere. -/
theorem drag_headCtxA (v X : ℝ) :
    drag_force headCtxA v X =
      density_ratio stdConditions * 0.5 * v ^ 2 / (0.5 * 1600) := by
  simp only [drag_force, headCtxA, get_drag_single]

/-- The rotated context keeps the same drag model. -/
theorem drag_headCtxB (v X : ℝ) :
    drag_force (rotWind headCtxA) v X =
      density_ratio stdConditions * 0.5 * v ^ 2 / (0.5 * 1600) := by
  have h : drag_force (rotWind headCtxA) = drag_force headCtxA := rfl
  rw [h]
  exact drag_headCtxA v X

/-- Downrange position after the first iteration against the 100 m/s
headwind. -/
theorem headCtxA_first_x :
    (stepSim headCtxA 0.079996 (initState headCtxA 0)).x =
      (800 - density_ratio stdConditions * 0.5 * (900 : ℝ) ^ 2 / (0.5 * 1600) * dt) * dt := by
  rw [first_step_x headCtxA 0.079996 100 800 headCtxA_headwind headCtxA_crosswind rfl
    (by norm_num)]
  rw [show (800 : ℝ) + 100 = 900 by norm_num]
  rw [drag_headCtxA]

/-- Downrange position after the first iteration with the 100 m/s tailwind. -/
theorem headCtxB_first_x :
    (stepSim (rotWind headCtxA) 0.079996 (initState (rotWind headCtxA) 0)).x =
      (800 - density_ratio stdConditions * 0.5 * (700 : ℝ) ^ 2 / (0.5 * 1600) * dt) * dt := by
  rw [first_step_x (rotWind headCtxA) 0.079996 (-100) 800 headCtxB_headwind
    headCtxB_crosswind rfl (by norm_num)]
  rw [show (800 : ℝ) + -100 = 700 by norm_num]
  rw [drag_headCtxB]

/-- Against the headwind the first step falls short of the 0.079996 m
sampling threshold but past the 0.0799 m maximum range. -/
theorem headCtxA_first_x_bounds :
    0.0799 ≤ (stepSim headCtxA 0.079996 (initState headCtxA 0)).x ∧
      (stepSim headCtxA 0.079996 (initState headCtxA 0)).x < 0.079996 := by
  rw [headCtxA_first_x]
  obtain ⟨h1, h2⟩ := density_ratio_std_bounds
  simp only [dt]
  constructor <;> nlinarith

/-- With the tailwind the first step passes the 0.079996 m sampling
threshold. -/
theorem headCtxB_first_x_bounds :
    0.079996 ≤ (stepSim (rotWind headCtxA) 0.079996 (initState (rotWind headCtxA) 0)).x := by
  rw [headCtxB_first_x]
  obtain ⟨h1, h2⟩ := density_ratio_std_bounds
  simp only [dt]
  nlinarith

/-- The headwind run records no sample at all: one iteration reaches the
maximum range without crossing the sampling threshold. -/
theorem headCtxA_trajectory_empty :
    integrate_trajectory headCtxA 0 0.0799 0.079996 = [] := by
  show (loopSim headCtxA 0.0799 0.079996 100001 (initState headCtxA 0)).traj.reverse = []
  rw [loopSim_one_then_stop headCtxA 0.0799 0.079996 (initState headCtxA 0)
    ⟨by show (0 : ℝ) < 0.0799; norm_num, by show (0 : ℝ) < 10; norm_num⟩
    headCtxA_first_x_bounds.1]
  have hnot : ¬ (initState headCtxA 0).lastX + 0.079996 ≤
      (stepSim headCtxA 0.079996 (initState headCtxA 0)).x := by
    have hl : (initState headCtxA 0).lastX = 0 := rfl
    rw [hl, zero_add]
    exact not_le.mpr headCtxA_first_x_bounds.2
  rw [(stepSim_traj_dichotomy headCtxA 0.079996 (initState headCtxA 0)).1 hnot]
  rfl

/-- The tailwind run records exactly one sample in its single iteration. -/
theorem headCtxB_trajectory_single :
    ∃ q, integrate_trajectory (rotWind headCtxA) 0 0.0799 0.079996 = [q] := by
  have hge : (initState (rotWind headCtxA) 0).lastX + 0.079996 ≤
      (stepSim (rotWind headCtxA) 0.079996 (initState (rotWind headCtxA) 0)).x := by
    have hl : (initState (rotWind headCtxA) 0).lastX = 0 := rfl
    rw [hl, zero_add]
    exact headCtxB_first_x_bounds
  obtain ⟨q, hq⟩ := (stepSim_traj_dichotomy (rotWind headCtxA) 0.079996
    (initState (rotWind headCtxA) 0)).2 hge
  refine ⟨q, ?_⟩
  show (loopSim (rotWind headCtxA) 0.0799 0.079996 100001
    (initState (rotWind headCtxA) 0)).traj.reverse = [q]
  rw [loopSim_one_then_stop (rotWind headCtxA) 0.0799 0.079996
    (initState (rotWind headCtxA) 0)
    ⟨by show (0 : ℝ) < 0.0799; norm_num, by show (0 : ℝ) < 10; norm_num⟩
    (le_trans (by norm_num) headCtxB_first_x_bounds)]
  rw [hq]
  rfl

/-- Claim C6, counterexample: with a 100 m/s wind from 0° (pure headwind)
versus the same wind rotated by 180°, all other inputs fixed, the integrator's
outputs cannot be matched sample-for-sample with equal drop and velocity and
negated windage — the headwind run yields no sample where the tailwind run
yields one, because the air-relative speed (hence drag and the downrange
profile) differs between the two runs. -/
theorem wind_reversal_claim_fails :
    ¬ List.Forall₂ mirrorRel (integrate_trajectory headCtxA 0 0.0799 0.079996)
      (integrate_trajectory (rotWind headCtxA) 0 0.0799 0.079996) := by
  intro hf
  obtain ⟨q, hq⟩ := headCtxB_trajectory_single
  rw [headCtxA_trajectory_empty, hq] at hf
  have : ([q] : List TrajectoryPoint) = [] := List.forall₂_nil_left_iff.mp hf
  exact absurd this (by simp)

/-! ### Claim C2: the zero-angle search -/

/-- A degenerate context: muzzle velocity 0.01 m/s, calm air, flat drag
table.  The projectile barely moves, so a 1 m sampling step never records a
sample and the zero search's drop read has no sample to read. -/
noncomputable def degCtx : SolverCtx :=
  ⟨⟨projG7only, { muzzle_velocity_mps := 0.01 }, stdConditions, ⟨0, 0⟩, 41.7, 0, 0⟩,
    [(0, 0.5)], 0.5⟩

/-- Calm air: zero headwind component. -/
theorem degCtx_headwind : degCtx.conditions.wind.headwind_component = 0 := by
  show (0 : ℝ) * Real.cos ((0 : ℝ) * Real.pi / 180) = 0
  exact zero_mul _

/-- Calm air: zero crosswind component. -/
theorem degCtx_crosswind : degCtx.conditions.wind.crosswind_component = 0 := by
  show (0 : ℝ) * Real.sin ((0 : ℝ) * Real.pi / 180) = 0
  exact zero_mul _

/-- Drag in `degCtx`: flat coefficient 0.5, BC 0.5, standard atmosphere. -/
theorem drag_degCtx (v X : ℝ) :
    drag_force degCtx v X =
      density_ratio stdConditions * 0.5 * v ^ 2 / (0.5 * 1600) := by
  simp only [drag_force, degCtx, get_drag_single]

/-- One calm-air iteration in `degCtx` in closed form: each velocity component
shrinks by the factor `1 - k·dt` (gravity apart), where the drag rate `k` is
nonnegative and at most `density_ratio · speed / 1600`. -/
theorem stepSim_deg (st : SimState) :
    ∃ k : ℝ, 0 ≤ k ∧
      k ≤ density_ratio stdConditions *
        Real.sqrt (st.vx ^ 2 + st.vy ^ 2 + st.vz ^ 2) / 1600 ∧
      (stepSim degCtx 1 st).vx = st.vx - k * st.vx * dt ∧
      (stepSim degCtx 1 st).vy = st.vy - k * st.vy * dt - GRAVITY * dt ∧
      (stepSim degCtx 1 st).vz = st.vz - k * st.vz * dt ∧
      (stepSim degCtx 1 st).x = st.x + (st.vx - k * st.vx * dt) * dt := by
  have hdr1 := density_ratio_std_bounds.1
  simp only [stepSim, degCtx_headwind, degCtx_crosswind, neg_zero, sub_zero]
  set R := Real.sqrt (st.vx ^ 2 + st.vy ^ 2 + st.vz ^ 2) with hR
  by_cases hRpos : 0 < R
  · refine ⟨drag_force degCtx R (mach_number degCtx.conditions.atmosphere R) / R,
      ?_, ?_, ?_, ?_, ?_, ?_⟩
    · apply div_nonneg _ hRpos.le
      rw [drag_degCtx]
      positivity
    · rw [drag_degCtx]
      have : density_ratio stdConditions * 0.5 * R ^ 2 / (0.5 * 1600) / R =
          density_ratio stdConditions * R / 1600 := by
        field_simp
        ring
      rw [this]
    · rw [if_pos hRpos]
      split <;>
        · dsimp only
          ring
    · rw [if_pos hRpos]
      split <;>
        · dsimp only
          ring
    · rw [if_pos hRpos]
      split <;>
        · dsimp only
          ring
    · rw [if_pos hRpos]
      split <;>
        · dsimp only
          ring
  · refine ⟨0, le_refl 0, ?_, ?_, ?_, ?_, ?_⟩
    · apply div_nonneg _ (by norm_num)
      apply mul_nonneg (by linarith) (Real.sqrt_nonneg _)
    · rw [if_neg hRpos]
      split <;>
        · dsimp only
          ring
    · rw [if_neg hRpos]
      split <;>
        · dsimp only
          ring
    · rw [if_neg hRpos]
      split <;>
        · dsimp only
          ring
    · rw [if_neg hRpos]
      split <;>
        · dsimp only
          ring

/-- Invariant of the degenerate run: no sample ever recorded, `lastX` pinned
at 0, lateral velocity zero, horizontal speed at most 0.01 m/s, vertical
speed bounded by free fall, and downrange progress at most 0.01 m per
second. -/
def DegInv (st : SimState) : Prop :=
  st.traj = [] ∧ st.lastX = 0 ∧ |st.vx| ≤ 0.01 ∧ st.vz = 0 ∧
  |st.vy| ≤ 0.01 + GRAVITY * st.t ∧ st.x ≤ 0.01 * st.t ∧ 0 ≤ st.t

set_option maxHeartbeats 2000000 in
/-- One guarded iteration preserves the degenerate invariant. -/
theorem degInv_step (st : SimState) (h : DegInv st) (ht : st.t < 10) :
    DegInv (stepSim degCtx 1 st) := by
  obtain ⟨htraj, hlast, hvx, hvz, hvy, hx, ht0⟩ := h
  obtain ⟨k, hk0, hkb, hevx, hevy, hevz, hex⟩ := stepSim_deg st
  have hg : GRAVITY = 9.80665 := rfl
  have hdt := dt_pos
  have hdtv : dt = 0.0001 := rfl
  have hvyB : |st.vy| ≤ 98.1 := by
    rw [hg] at hvy
    linarith
  have hRB : Real.sqrt (st.vx ^ 2 + st.vy ^ 2 + st.vz ^ 2) ≤ 100 := by
    have h1 : st.vx ^ 2 + st.vy ^ 2 + st.vz ^ 2 ≤ 100 ^ 2 := by
      rw [hvz]
      nlinarith [sq_abs st.vx, sq_abs st.vy, abs_nonneg st.vx, abs_nonneg st.vy]
    calc Real.sqrt (st.vx ^ 2 + st.vy ^ 2 + st.vz ^ 2) ≤ Real.sqrt (100 ^ 2) :=
          Real.sqrt_le_sqrt h1
      _ = 100 := Real.sqrt_sq (by norm_num)
  have hkdt : k * dt ≤ 1 := by
    have hdr2 := density_ratio_std_bounds.2
    have hdr1 := density_ratio_std_bounds.1
    have hk2 : k ≤ 1.000011 * 100 / 1600 := by
      refine le_trans hkb ?_
      have : density_ratio stdConditions *
          Real.sqrt (st.vx ^ 2 + st.vy ^ 2 + st.vz ^ 2) ≤ 1.000011 * 100 := by
        nlinarith [Real.sqrt_nonneg (st.vx ^ 2 + st.vy ^ 2 + st.vz ^ 2)]
      linarith
    rw [hdtv]
    nlinarith
  have hfac : |1 - k * dt| ≤ 1 := by
    rw [abs_le]
    constructor
    · nlinarith
    · nlinarith [mul_nonneg hk0 hdt.le]
  have hvx' : |(stepSim degCtx 1 st).vx| ≤ 0.01 := by
    rw [hevx, show st.vx - k * st.vx * dt = st.vx * (1 - k * dt) by ring, abs_mul]
    calc |st.vx| * |1 - k * dt| ≤ |st.vx| * 1 :=
          mul_le_mul_of_nonneg_left hfac (abs_nonneg _)
      _ ≤ 0.01 := by rw [mul_one]; exact hvx
  have ht' := stepSim_t degCtx 1 st
  refine ⟨?_, ?_, hvx', ?_, ?_, ?_, ?_⟩
  · rcases stepSim_traj_cases degCtx 1 st with ⟨h1, _⟩ | ⟨q, _, _, hqr, _, hbound⟩
    · rw [h1, htraj]
    · exfalso
      rw [hlast, zero_add, hqr, hex] at hbound
      have h3 : st.vx - k * st.vx * dt ≤ 0.01 := by
        have h4 := le_of_abs_le hvx'
        rw [hevx] at h4
        exact h4
      have h2 : (st.vx - k * st.vx * dt) * dt ≤ 0.01 * dt :=
        mul_le_mul_of_nonneg_right h3 hdt.le
      linarith [hdtv, hbound, h2, hx, ht]
  · rcases stepSim_traj_cases degCtx 1 st with ⟨_, h2⟩ | ⟨q, _, _, hqr, _, hbound⟩
    · rw [h2, hlast]
    · exfalso
      rw [hlast, zero_add, hqr, hex] at hbound
      have h3 : st.vx - k * st.vx * dt ≤ 0.01 := by
        have h4 := le_of_abs_le hvx'
        rw [hevx] at h4
        exact h4
      have h2 : (st.vx - k * st.vx * dt) * dt ≤ 0.01 * dt :=
        mul_le_mul_of_nonneg_right h3 hdt.le
      linarith [hdtv, hbound, h2, hx, ht]
  · rw [hevz, hvz]
    ring
  · rw [hevy, ht']
    have h1 : |st.vy - k * st.vy * dt - GRAVITY * dt| ≤
        |st.vy * (1 - k * dt)| + |GRAVITY * dt| := by
      rw [show st.vy - k * st.vy * dt - GRAVITY * dt =
        st.vy * (1 - k * dt) + -(GRAVITY * dt) by ring]
      calc |st.vy * (1 - k * dt) + -(GRAVITY * dt)| ≤
            |st.vy * (1 - k * dt)| + |-(GRAVITY * dt)| := abs_add _ _
        _ = |st.vy * (1 - k * dt)| + |GRAVITY * dt| := by rw [abs_neg]
    have h2 : |st.vy * (1 - k * dt)| ≤ |st.vy| := by
      rw [abs_mul]
      calc |st.vy| * |1 - k * dt| ≤ |st.vy| * 1 :=
            mul_le_mul_of_nonneg_left hfac (abs_nonneg _)
        _ = |st.vy| := mul_one _
    have h3 : |GRAVITY * dt| = GRAVITY * dt := by
      rw [abs_of_nonneg]
      rw [hg, hdtv]
      norm_num
    calc |st.vy - k * st.vy * dt - GRAVITY * dt| ≤ |st.vy| + GRAVITY * dt := by
          rw [h3] at h1
          linarith [h2]
      _ ≤ 0.01 + GRAVITY * st.t + GRAVITY * dt := by linarith
      _ = 0.01 + GRAVITY * (st.t + dt) := by ring
  · rw [hex, ht']
    have h3 : st.vx - k * st.vx * dt ≤ 0.01 := by
      have h4 := le_of_abs_le hvx'
      rw [hevx] at h4
      exact h4
    have h2 : (st.vx - k * st.vx * dt) * dt ≤ 0.01 * dt :=
      mul_le_mul_of_nonneg_right h3 hdt.le
    linarith [h2, hx]
  · rw [ht']
    linarith

/-- The whole loop preserves the degenerate invariant (any maximum range). -/
theorem degInv_loop (maxR : ℝ) :
    ∀ (n : ℕ) (st : SimState), DegInv st → DegInv (loopSim degCtx maxR 1 n st) := by
  intro n
  induction n with
  | zero => exact fun st h => h
  | succ p ih =>
    intro st h
    show DegInv (if st.x < maxR ∧ st.t < 10 then
      loopSim degCtx maxR 1 p (stepSim degCtx 1 st) else st)
    by_cases hc : st.x < maxR ∧ st.t < 10
    · rw [if_pos hc]
      exact ih _ (degInv_step st h hc.2)
    · rw [if_neg hc]
      exact h

/-- In the degenerate context every 1 m-sampled integration — at *any* bore
angle and any maximum range — produces an empty trajectory: the projectile
advances at most 0.1 m in the whole 10 s flight window. -/
theorem deg_integrate_empty (angle maxR : ℝ) :
    integrate_trajectory degCtx angle maxR 1 = [] := by
  have h0 : DegInv (initState degCtx angle) := by
    refine ⟨rfl, rfl, ?_, rfl, ?_, ?_, le_refl 0⟩
    · show |(0.01 : ℝ) * Real.cos angle| ≤ 0.01
      rw [abs_mul]
      calc |(0.01 : ℝ)| * |Real.cos angle| ≤ |(0.01 : ℝ)| * 1 :=
            mul_le_mul_of_nonneg_left (Real.abs_cos_le_one angle) (abs_nonneg _)
        _ = 0.01 := by rw [mul_one]; norm_num
    · show |(0.01 : ℝ) * Real.sin angle| ≤ 0.01 + GRAVITY * (0 : ℝ)
      rw [abs_mul, mul_zero, add_zero]
      calc |(0.01 : ℝ)| * |Real.sin angle| ≤ |(0.01 : ℝ)| * 1 :=
            mul_le_mul_of_nonneg_left (Real.abs_sin_le_one angle) (abs_nonneg _)
        _ = 0.01 := by rw [mul_one]; norm_num
    · show (0 : ℝ) ≤ 0.01 * (0 : ℝ)
      norm_num
  have hfin := degInv_loop maxR 100001 (initState degCtx angle) h0
  show (loopSim degCtx maxR 1 100001 (initState degCtx angle)).traj.reverse = []
  rw [hfin.1]
  rfl

/-- An empty drop read means the trajectory itself was empty (a nonempty list
always has a last element for the `trajectory[-1]` fallback). -/
theorem dropAtZero_none {R : ℝ} {l : List TrajectoryPoint}
    (h : dropAtZero R l = none) : l = [] := by
  cases l with
  | nil => rfl
  | cons a t =>
    exfalso
    unfold dropAtZero at h
    cases hf : (a :: t).find? (fun pt => decide (R ≤ pt.range_m)) with
    | some pt =>
      rw [hf] at h
      exact absurd h (by simp)
    | none =>
      rw [hf] at h
      cases hg : (a :: t).getLast? with
      | some q =>
        rw [hg] at h
        exact absurd h (by simp)
      | none =>
        exact absurd (List.getLast?_eq_none_iff.mp hg) (List.cons_ne_nil a t)

/-- The zero search performs at most as many trajectory integrations as it
has iterations of fuel. -/
theorem zeroAux_count_le (s : SolverCtx) (R : ℝ) :
    ∀ (n : ℕ) (a : ℝ), (zeroAux s R n a).2 ≤ n := by
  intro n
  induction n with
  | zero => exact fun a => le_refl 0
  | succ p ih =>
    intro a
    simp only [zeroAux]
    cases hdz : dropAtZero R (integrate_trajectory s a (R + 10) 1) with
    | none =>
      show (1 : ℕ) ≤ p + 1
      omega
    | some d =>
      show (if |-d - s.conditions.rifle.sight_height_m| < 0.0001 then
          (some (a + Real.arctan ((-d - s.conditions.rifle.sight_height_m) / R) * 0.5), (1 : ℕ))
        else
          ((zeroAux s R p
              (a + Real.arctan ((-d - s.conditions.rifle.sight_height_m) / R) * 0.5)).1,
            (zeroAux s R p
              (a + Real.arctan ((-d - s.conditions.rifle.sight_height_m) / R) * 0.5)).2 + 1)).2
        ≤ p + 1
      split
      · show (1 : ℕ) ≤ p + 1
        omega
      · exact Nat.succ_le_succ (ih _)

/-- When the drop read succeeds and the discrepancy is already below 0.1 mm,
one more round stops immediately, returning the angle updated by half the
arctangent correction. -/
theorem zeroAux_converged (s : SolverCtx) (R : ℝ) (n : ℕ) (a d : ℝ)
    (hdz : dropAtZero R (integrate_trajectory s a (R + 10) 1) = some d)
    (hcv : |-d - s.conditions.rifle.sight_height_m| < 0.0001) :
    (zeroAux s R (n + 1) a).1 =
      some (a + Real.arctan ((-d - s.conditions.rifle.sight_height_m) / R) * 0.5) := by
  simp only [zeroAux]
  rw [hdz]
  show (if |-d - s.conditions.rifle.sight_height_m| < 0.0001 then
      (some (a + Real.arctan ((-d - s.conditions.rifle.sight_height_m) / R) * 0.5), (1 : ℕ))
    else
      ((zeroAux s R n
          (a + Real.arctan ((-d - s.conditions.rifle.sight_height_m) / R) * 0.5)).1,
        (zeroAux s R n
          (a + Real.arctan ((-d - s.conditions.rifle.sight_height_m) / R) * 0.5)).2 + 1)).1 = _
  rw [if_pos hcv]

/-- When the drop read succeeds but the discrepancy is not yet below 0.1 mm,
one round applies half the arctangent correction and recurses on the rest of
the fuel. -/
theorem zeroAux_not_converged (s : SolverCtx) (R : ℝ) (n : ℕ) (a d : ℝ)
    (hdz : dropAtZero R (integrate_trajectory s a (R + 10) 1) = some d)
    (hcv : ¬ |-d - s.conditions.rifle.sight_height_m| < 0.0001) :
    (zeroAux s R (n + 1) a).1 =
      (zeroAux s R n
        (a + Real.arctan ((-d - s.conditions.rifle.sight_height_m) / R) * 0.5)).1 := by
  simp only [zeroAux]
  rw [hdz]
  show (if |-d - s.conditions.rifle.sight_height_m| < 0.0001 then
      (some (a + Real.arctan ((-d - s.conditions.rifle.sight_height_m) / R) * 0.5), (1 : ℕ))
    else
      ((zeroAux s R n
          (a + Real.arctan ((-d - s.conditions.rifle.sight_height_m) / R) * 0.5)).1,
        (zeroAux s R n
          (a + Real.arctan ((-d - s.conditions.rifle.sight_height_m) / R) * 0.5)).2 + 1)).1 = _
  rw [if_neg hcv]

/-- The search can only fail to return an angle when some integration during
it yielded an empty trajectory (the `trajectory[-1]` read). -/
theorem zeroAux_none (s : SolverCtx) (R : ℝ) :
    ∀ (n : ℕ) (a : ℝ), (zeroAux s R n a).1 = none →
      ∃ a', integrate_trajectory s a' (R + 10) 1 = [] := by
  intro n
  induction n with
  | zero =>
    intro a h
    have h2 : (some a : Option ℝ) = none := h
    exact absurd h2 (Option.some_ne_none a)
  | succ p ih =>
    intro a h
    simp only [zeroAux] at h
    cases hdz : dropAtZero R (integrate_trajectory s a (R + 10) 1) with
    | none => exact ⟨a, dropAtZero_none hdz⟩
    | some d =>
      rw [hdz] at h
      have h2 : (if |-d - s.conditions.rifle.sight_height_m| < 0.0001 then
          (some (a + Real.arctan ((-d - s.conditions.rifle.sight_height_m) / R) * 0.5), (1 : ℕ))
        else
          ((zeroAux s R p
              (a + Real.arctan ((-d - s.conditions.rifle.sight_height_m) / R) * 0.5)).1,
            (zeroAux s R p
              (a + Real.arctan ((-d - s.conditions.rifle.sight_height_m) / R) * 0.5)).2 + 1)).1
          = none := h
      by_cases hcv : |-d - s.conditions.rifle.sight_height_m| < 0.0001
      · rw [if_pos hcv] at h2
        exact absurd h2 (by simp)
      · rw [if_neg hcv] at h2
        exact ih _ h2

/-- In the degenerate context the zero search fails on its very first
iteration: the integration out to 110 m returns no samples, so the
`trajectory[-1]` drop read has nothing to read. -/
theorem find_zero_angle_deg_aux : find_zero_angle degCtx 100 = none := by
  show (zeroAux degCtx 100 (9 + 1) (initialAngleGuess degCtx 100)).1 = none
  simp only [zeroAux]
  rw [deg_integrate_empty (initialAngleGuess degCtx 100) (100 + 10)]
  rfl

/-- Claim C2, amended: the zero-angle search performs at most 10 trajectory
integrations; whenever a drop read succeeds it forms the discrepancy
`-drop - sight_height`, converts it to an angle via arctangent over the zero
range and adds half of that correction to the guess, stopping as soon as the
discrepancy magnitude is below 0.1 mm; and it can only fail to return an
angle when an integration during the search produced an *empty* trajectory
(the `trajectory[-1]` read raises); non-convergence alone never raises. -/
theorem zero_search_spec (s : SolverCtx) (R : ℝ) :
    zeroIntegrations s R ≤ 10 ∧
    (∀ (n : ℕ) (a d : ℝ),
      dropAtZero R (integrate_trajectory s a (R + 10) 1) = some d →
      |-d - s.conditions.rifle.sight_height_m| < 0.0001 →
      (zeroAux s R (n + 1) a).1 =
        some (a + Real.arctan ((-d - s.conditions.rifle.sight_height_m) / R) * 0.5)) ∧
    (∀ (n : ℕ) (a d : ℝ),
      dropAtZero R (integrate_trajectory s a (R + 10) 1) = some d →
      ¬ |-d - s.conditions.rifle.sight_height_m| < 0.0001 →
      (zeroAux s R (n + 1) a).1 =
        (zeroAux s R n
          (a + Real.arctan ((-d - s.conditions.rifle.sight_height_m) / R) * 0.5)).1) ∧
    (find_zero_angle s R = none → ∃ a, integrate_trajectory s a (R + 10) 1 = []) :=
  ⟨zeroAux_count_le s R 10 _,
   fun n a d hdz hcv => zeroAux_converged s R n a d hdz hcv,
   fun n a d hdz hcv => zeroAux_not_converged s R n a d hdz hcv,
   fun h => zeroAux_none s R 10 _ h⟩

/-- Witness for the amended claim C2: in the degenerate context the search
indeed performed at most 10 integrations, and its failure exhibits an angle
whose integration was empty. -/
theorem zero_search_spec_witness :
    zeroIntegrations degCtx 100 ≤ 10 ∧
      ∃ a, integrate_trajectory degCtx a (100 + 10) 1 = [] :=
  ⟨(zero_search_spec degCtx 100).1,
   (zero_search_spec degCtx 100).2.2.2 find_zero_angle_deg_aux⟩

/-- Claim C2, counterexample: the search does *not* always return an angle.
With muzzle velocity 0.01 m/s (zero wind, standard atmosphere, zero range
100 m) every integration in the search produces an empty trajectory, the
`trajectory[-1]` read fails (Python raises `IndexError`), and no angle is
returned. -/
theorem find_zero_angle_degenerate_fails : find_zero_angle degCtx 100 = none :=
  find_zero_angle_deg_aux
